import Mathlib

/-!
Verification of the compass rule-matching and scoring engine.

The Rust source (`src/analyzer.rs`, `src/config.rs`) is shallowly embedded:
`f64` arithmetic is modelled exactly over `ℚ`, `usize` counters over `ℕ`,
and the external tree-sitter engine (`Query::new` + `QueryCursor::matches`)
is abstracted as a function from a pattern-query string to either a
`PatternError` or the list of captured nodes, exactly the interface the
analyzer consumes.
-/

namespace Compass

/-- Severity levels of `analyzer.rs` (`enum Severity`). -/
inductive Severity where
  | error
  | warning
  | info
  | style
deriving DecidableEq, Repr

/-- Embeds `Severity::base_score_impact` (analyzer.rs:25-32). -/
def Severity.base_score_impact : Severity → ℚ
  | .error => -3
  | .warning => -(3/2)
  | .info => -(2/5)
  | .style => -(1/5)

/-- Base deduction magnitude of each severity as the spec states it
(spec §3: Error=3.0, Warning=1.5, Info=0.4, Style=0.2, all magnitudes).
Spec-side definition, compared with `Severity.base_score_impact`. -/
def Severity.base_magnitude : Severity → ℚ
  | .error => 3
  | .warning => 3/2
  | .info => 2/5
  | .style => 1/5

/-- Embeds `struct AnalysisRule` (analyzer.rs:36-43). -/
structure AnalysisRule where
  name : String
  query : String
  severity : Severity
  message_template : String
  suggestion : Option String
  weight_multiplier : ℚ
deriving DecidableEq, Repr

/-- Embeds `struct AnalysisResult` (analyzer.rs:5-14), one emitted issue. -/
structure AnalysisResult where
  rule_name : String
  severity : Severity
  message : String
  line : Nat
  column : Nat
  text : String
  suggestion : Option String
  score_impact : ℚ
deriving DecidableEq, Repr

/-- Embeds `struct ScoreBreakdown` (analyzer.rs:80-90). -/
structure ScoreBreakdown where
  errors : Nat
  warnings : Nat
  info_issues : Nat
  style_issues : Nat
  error_deduction : ℚ
  warning_deduction : ℚ
  info_deduction : ℚ
  style_deduction : ℚ
  size_bonus : ℚ
deriving DecidableEq, Repr

/-- Embeds `struct CodeScore` (analyzer.rs:70-77). -/
structure CodeScore where
  overall_score : ℚ
  max_score : ℚ
  total_issues : Nat
  breakdown : ScoreBreakdown
  rating : String
  summary : String
deriving DecidableEq, Repr

/-- One captured node as the external tree-sitter engine yields it:
start position (0-based row/column) and the matched source text
(analyzer.rs:126-129). -/
structure Capture where
  row : Nat
  col : Nat
  text : String
deriving DecidableEq, Repr

/-- The issues one rule emits from its list of captures: the body of the
per-capture loop of `CodeAnalyzer::analyze` (analyzer.rs:126-143), with the
0-based positions converted to 1-based and
`score_impact = severity.base_score_impact() * weight_multiplier`
(analyzer.rs:131). -/
def ruleIssues (rule : AnalysisRule) (captures : List Capture) :
    List AnalysisResult :=
  captures.map fun c =>
    { rule_name := rule.name
      severity := rule.severity
      message := rule.message_template
      line := c.row + 1
      column := c.col + 1
      text := c.text
      suggestion := rule.suggestion
      score_impact := rule.severity.base_score_impact * rule.weight_multiplier }

/-- Embeds `CodeAnalyzer::analyze` (analyzer.rs:109-148). The external
engine (`Query::new` followed by `cursor.matches`) is a parameter mapping a
rule's pattern-query string to `Except`: `Query::new(language, &rule.query)?`
propagates a `PatternError` immediately (the `?` on analyzer.rs:121), so a
failing rule aborts the whole run with no partial result; otherwise the
rule's captures are turned into issues appended in rule order. -/
def analyze (engine : String → Except String (List Capture)) :
    List AnalysisRule → Except String (List AnalysisResult)
  | [] => Except.ok []
  | rule :: rest =>
    match engine rule.query with
    | Except.error e => Except.error e
    | Except.ok caps =>
      match analyze engine rest with
      | Except.error e => Except.error e
      | Except.ok tail => Except.ok (ruleIssues rule caps ++ tail)

/-- The zero-initialized breakdown of `calculate_score` (analyzer.rs:164-174). -/
def initBreakdown : ScoreBreakdown :=
  { errors := 0, warnings := 0, info_issues := 0, style_issues := 0
    error_deduction := 0, warning_deduction := 0, info_deduction := 0
    style_deduction := 0, size_bonus := 0 }

/-- One step of the tally loop of `calculate_score` (analyzer.rs:176-195):
the matching severity bucket's count is incremented and
`abs(score_impact)` added to its deduction sum. -/
def tallyOne (b : ScoreBreakdown) (r : AnalysisResult) : ScoreBreakdown :=
  match r.severity with
  | .error =>
    { b with errors := b.errors + 1
             error_deduction := b.error_deduction + |r.score_impact| }
  | .warning =>
    { b with warnings := b.warnings + 1
             warning_deduction := b.warning_deduction + |r.score_impact| }
  | .info =>
    { b with info_issues := b.info_issues + 1
             info_deduction := b.info_deduction + |r.score_impact| }
  | .style =>
    { b with style_issues := b.style_issues + 1
             style_deduction := b.style_deduction + |r.score_impact| }

/-- The whole tally loop of `calculate_score` (analyzer.rs:176-195). -/
def tally (results : List AnalysisResult) : ScoreBreakdown :=
  results.foldl tallyOne initBreakdown

/-- Embeds `total_deduction` (analyzer.rs:197-200). -/
def totalDeduction (b : ScoreBreakdown) : ℚ :=
  b.error_deduction + b.warning_deduction + b.info_deduction +
    b.style_deduction

/-- Embeds `leniency` of the `line_count > 200` branch (analyzer.rs:203):
`((line_count as f64 - 200.0) / 1000.0).min(0.3)`. -/
def leniency (line_count : Nat) : ℚ :=
  min (((line_count : ℚ) - 200) / 1000) (3/10)

/-- Embeds the `size_factor` if-chain of `calculate_score`
(analyzer.rs:202-211), which depends only on the line count. -/
def sizeFactor (line_count : Nat) : ℚ :=
  if line_count > 200 then 1 + leniency line_count
  else if line_count < 50 then 9/10
  else 1

/-- The side effect of the same if-chain on the breakdown
(analyzer.rs:204-205): only the `line_count > 200` branch writes
`size_bonus = leniency * (info_deduction + style_deduction)`. -/
def applySizeBonus (b : ScoreBreakdown) (line_count : Nat) : ScoreBreakdown :=
  if line_count > 200 then
    { b with size_bonus := leniency line_count *
        (b.info_deduction + b.style_deduction) }
  else b

/-- Rust `f64::round`: round to the nearest integer, ties away from zero,
over ℚ. -/
def rustRound (x : ℚ) : ℤ :=
  if 0 ≤ x then ⌊x + 1/2⌋ else ⌈x - 1/2⌉

/-- The score pipeline of `calculate_score` (analyzer.rs:213-215):
`adjusted_deduction = total_deduction / size_factor`,
`overall_score = max(0, 10 - adjusted_deduction)`, then
`(overall_score * 10.0).round() / 10.0`. -/
def roundedScore (results : List AnalysisResult) (line_count : Nat) : ℚ :=
  let adjusted_deduction := totalDeduction (tally results) / sizeFactor line_count
  let overall_score := max 0 (10 - adjusted_deduction)
  (rustRound (overall_score * 10) : ℚ) / 10

/-- Embeds the rating match of `get_rating_and_summary`
(analyzer.rs:230-237): the first matching inclusive range pattern wins. -/
def getRating (score : ℚ) : String :=
  if 9 ≤ score ∧ score ≤ 10 then "Excellent"
  else if 15/2 ≤ score ∧ score ≤ 89/10 then "Good"
  else if 6 ≤ score ∧ score ≤ 74/10 then "Fair"
  else if 4 ≤ score ∧ score ≤ 59/10 then "Poor"
  else "Critical"

/-- Embeds the summary if-chain of `get_rating_and_summary`
(analyzer.rs:239-254). -/
def getSummary (score : ℚ) (b : ScoreBreakdown) : String :=
  if b.errors > 0 then
    "Code has " ++ toString b.errors ++
      " critical errors that need immediate attention"
  else if b.warnings > 5 then
    "Multiple warnings detected - consider addressing them"
  else if b.info_issues > 10 then
    "Many minor issues found - good opportunity for cleanup"
  else if 9 ≤ score then
    "Excellent code quality with minimal issues"
  else if 15/2 ≤ score then
    "Good code quality with room for minor improvements"
  else
    "Code needs improvement in several areas"

/-- Embeds `CodeAnalyzer::calculate_score` (analyzer.rs:160-227), taking
the issue list and the line count of the analyzed text (the Rust computes
the latter as `source_code.lines().count()`). -/
def calculate_score (results : List AnalysisResult) (line_count : Nat) :
    CodeScore :=
  let breakdown := applySizeBonus (tally results) line_count
  let rounded_score := roundedScore results line_count
  { overall_score := rounded_score
    max_score := 10
    total_issues := results.length
    breakdown := breakdown
    rating := getRating rounded_score
    summary := getSummary rounded_score breakdown }

/-- Embeds `struct RuleConfig` (config.rs:7-19) after deserialization. -/
structure RuleConfig where
  name : String
  query : String
  severity : String
  message : String
  suggestion : Option String
  weight : ℚ
  enabled : Bool
  language : Option String
deriving DecidableEq, Repr

/-- The serde defaulting on `RuleConfig` (config.rs:13-18): a descriptor
whose `weight` field is absent gets `default_weight() = 1.0`
(`#[serde(default = "default_weight")]`), one whose `enabled` field is
absent gets `bool::default() = false` (`#[serde(default)]`), and an absent
`language` stays `None`. Absent optional inputs are passed as `none`. -/
def parseRuleConfig (name query severity message : String)
    (suggestion : Option String) (weight : Option ℚ) (enabled : Option Bool)
    (language : Option String) : RuleConfig :=
  { name := name, query := query, severity := severity, message := message
    suggestion := suggestion
    weight := weight.getD 1
    enabled := enabled.getD false
    language := language }

/-- The severity-string match of `to_analyzer_for_language`
(config.rs:58-64): case-insensitive, unrecognized values become `Info`. -/
def parseSeverity (s : String) : Severity :=
  match s.toLower with
  | "error" => Severity.error
  | "warning" => Severity.warning
  | "info" => Severity.info
  | "style" => Severity.style
  | _ => Severity.info

/-- The `AnalysisRule::new(...).with_weight(...)` construction of
`to_analyzer_for_language` (config.rs:66-73, analyzer.rs:46-66). -/
def configToRule (rc : RuleConfig) : AnalysisRule :=
  { name := rc.name
    query := rc.query
    severity := parseSeverity rc.severity
    message_template := rc.message
    suggestion := rc.suggestion
    weight_multiplier := rc.weight }

/-- Embeds `AnalyzerConfig::to_analyzer_for_language` (config.rs:43-79) as
the rule list of the produced analyzer: disabled rules are skipped
(config.rs:48-50), rules carrying a language tag different from the
target (case-insensitively) are skipped (config.rs:52-56), the rest are
converted in order. -/
def toAnalyzerForLanguage (cfg : List RuleConfig) (language : String) :
    List AnalysisRule :=
  let target := language.toLower
  cfg.filterMap fun rc =>
    if rc.enabled then
      match rc.language with
      | some l => if l.toLower = target then some (configToRule rc) else none
      | none => some (configToRule rc)
    else none

/-- Concrete issue of Scenario D (spec §8): a `Style` issue from a rule of
weight 1.0, so `score_impact = -0.2`. -/
def styleIssue : AnalysisResult :=
  { rule_name := "long_line", severity := Severity.style, message := "style"
    line := 1, column := 1, text := "", suggestion := none
    score_impact := -(1/5) }

/-- A rule with a negative weight multiplier, as the config format allows. -/
def negWeightRule : AnalysisRule :=
  { name := "neg", query := "(call) @c", severity := Severity.error
    message_template := "m", suggestion := none, weight_multiplier := -1 }

/-- A rule with weight 2 and `Warning` severity. -/
def warnRule : AnalysisRule :=
  { name := "warn", query := "(call) @c", severity := Severity.warning
    message_template := "m", suggestion := none, weight_multiplier := 2 }

/-- An engine that yields one captured node for every pattern query. -/
def singleCaptureEngine : String → Except String (List Capture) :=
  fun _ => Except.ok [{ row := 0, col := 0, text := "x" }]

/-- An engine on which every pattern query fails to compile. -/
def failingEngine : String → Except String (List Capture) :=
  fun _ => Except.error "PatternError"

/-- A breakdown with two errors and nothing else. -/
def errBreakdown : ScoreBreakdown :=
  { errors := 2, warnings := 0, info_issues := 0, style_issues := 0
    error_deduction := 6, warning_deduction := 0, info_deduction := 0
    style_deduction := 0, size_bonus := 0 }

/-- The issue `analyze` emits for `warnRule` on a single capture at the
origin with text `"x"`. -/
def warnIssue : AnalysisResult :=
  { rule_name := warnRule.name, severity := warnRule.severity
    message := warnRule.message_template, line := 1, column := 1, text := "x"
    suggestion := warnRule.suggestion
    score_impact := warnRule.severity.base_score_impact *
      warnRule.weight_multiplier }

/-- A configuration descriptor that is explicitly enabled. -/
def enabledRC : RuleConfig :=
  { name := "r1", query := "(call) @c", severity := "warning", message := "m"
    suggestion := none, weight := 1, enabled := true, language := none }

/-- A configuration descriptor that is disabled. -/
def disabledRC : RuleConfig :=
  { name := "r2", query := "(call) @c", severity := "error", message := "m"
    suggestion := none, weight := 1, enabled := false, language := none }

section Lemmas

/-- The negated base score impact of each severity is exactly the base
magnitude the spec lists. -/
theorem base_score_impact_eq_neg_magnitude (s : Severity) :
    s.base_score_impact = -s.base_magnitude := by
  cases s <;> rfl

/-- Every severity's base score impact is nonpositive. -/
theorem base_score_impact_nonpos (s : Severity) : s.base_score_impact ≤ 0 := by
  cases s <;> norm_num [Severity.base_score_impact]

/-- One tally step leaves every deduction sum at least as large. -/
theorem tallyOne_deductions_nonneg (b : ScoreBreakdown) (r : AnalysisResult)
    (h1 : 0 ≤ b.error_deduction) (h2 : 0 ≤ b.warning_deduction)
    (h3 : 0 ≤ b.info_deduction) (h4 : 0 ≤ b.style_deduction) :
    0 ≤ (tallyOne b r).error_deduction ∧
      0 ≤ (tallyOne b r).warning_deduction ∧
      0 ≤ (tallyOne b r).info_deduction ∧
      0 ≤ (tallyOne b r).style_deduction := by
  cases hs : r.severity <;>
    simp only [tallyOne, hs] <;>
    refine ⟨?_, ?_, ?_, ?_⟩ <;>
    first
      | assumption
      | exact add_nonneg (by assumption) (abs_nonneg _)

/-- The deduction sums of a tally starting from nonnegative sums stay
nonnegative. -/
theorem foldl_tally_deductions_nonneg (results : List AnalysisResult) :
    ∀ b : ScoreBreakdown, 0 ≤ b.error_deduction → 0 ≤ b.warning_deduction →
      0 ≤ b.info_deduction → 0 ≤ b.style_deduction →
      0 ≤ (results.foldl tallyOne b).error_deduction ∧
        0 ≤ (results.foldl tallyOne b).warning_deduction ∧
        0 ≤ (results.foldl tallyOne b).info_deduction ∧
        0 ≤ (results.foldl tallyOne b).style_deduction := by
  induction results with
  | nil => intro b h1 h2 h3 h4; exact ⟨h1, h2, h3, h4⟩
  | cons r rest ih =>
    intro b h1 h2 h3 h4
    simp only [List.foldl_cons]
    obtain ⟨g1, g2, g3, g4⟩ := tallyOne_deductions_nonneg b r h1 h2 h3 h4
    exact ih (tallyOne b r) g1 g2 g3 g4

/-- All four deduction sums of the tally are nonnegative. -/
theorem tally_deductions_nonneg (results : List AnalysisResult) :
    0 ≤ (tally results).error_deduction ∧
      0 ≤ (tally results).warning_deduction ∧
      0 ≤ (tally results).info_deduction ∧
      0 ≤ (tally results).style_deduction :=
  foldl_tally_deductions_nonneg results initBreakdown le_rfl le_rfl le_rfl le_rfl

/-- The total deduction of a tally is nonnegative. -/
theorem totalDeduction_tally_nonneg (results : List AnalysisResult) :
    0 ≤ totalDeduction (tally results) := by
  obtain ⟨h1, h2, h3, h4⟩ := tally_deductions_nonneg results
  unfold totalDeduction
  linarith

/-- The leniency term is strictly positive for files over 200 lines. -/
theorem leniency_pos {n : Nat} (h : 200 < n) : 0 < leniency n := by
  have : (201 : ℚ) ≤ (n : ℚ) := by exact_mod_cast h
  unfold leniency
  apply lt_min <;> [linarith; norm_num]

/-- The size factor is strictly positive for every line count. -/
theorem sizeFactor_pos (n : Nat) : 0 < sizeFactor n := by
  unfold sizeFactor
  rcases Nat.lt_or_ge 200 n with h | h
  · rw [if_pos h]
    have := leniency_pos h
    linarith
  · rw [if_neg (by omega)]
    split <;> norm_num

/-- Rounding a value of `[0, 100]` lands in the integer range `[0, 100]`. -/
theorem rustRound_bounds {x : ℚ} (h0 : 0 ≤ x) (h1 : x ≤ 100) :
    0 ≤ rustRound x ∧ rustRound x ≤ 100 := by
  unfold rustRound
  rw [if_pos h0]
  constructor
  · exact Int.le_floor.mpr (by push_cast; linarith)
  · have : ⌊x + 1/2⌋ < 101 := Int.floor_lt.mpr (by push_cast; linarith)
    omega

/-- Rounding is monotone on nonnegative inputs. -/
theorem rustRound_mono {x y : ℚ} (hx : 0 ≤ x) (hxy : x ≤ y) :
    rustRound x ≤ rustRound y := by
  unfold rustRound
  rw [if_pos hx, if_pos (hx.trans hxy)]
  exact Int.floor_mono (by linarith)

/-- The rounded score is `k/10` for some natural `k ≤ 100`. -/
theorem roundedScore_eq_tenths (results : List AnalysisResult) (n : Nat) :
    ∃ k : Nat, k ≤ 100 ∧ roundedScore results n = (k : ℚ) / 10 := by
  simp only [roundedScore]
  set t := totalDeduction (tally results) with ht
  set x := max 0 (10 - t / sizeFactor n) with hx
  have hx0 : 0 ≤ x := le_max_left 0 _
  have hadj : 0 ≤ t / sizeFactor n :=
    div_nonneg (totalDeduction_tally_nonneg results) (sizeFactor_pos n).le
  have hx10 : x ≤ 10 := max_le (by norm_num) (by linarith)
  obtain ⟨hr0, hr100⟩ := rustRound_bounds
    (by positivity : (0:ℚ) ≤ x * 10) (by linarith : x * 10 ≤ 100)
  refine ⟨(rustRound (x * 10)).toNat, by omega, ?_⟩
  congr 1
  exact_mod_cast (Int.toNat_of_nonneg hr0).symm

/-- The rounded score lies in `[0, 10]`. -/
theorem roundedScore_bounds (results : List AnalysisResult) (n : Nat) :
    0 ≤ roundedScore results n ∧ roundedScore results n ≤ 10 := by
  obtain ⟨k, hk, he⟩ := roundedScore_eq_tenths results n
  rw [he]
  have hc : (k : ℚ) ≤ 100 := by exact_mod_cast hk
  constructor
  · positivity
  · rw [div_le_iff₀ (by norm_num : (0:ℚ) < 10)]
    linarith

/-- One tally step never touches `size_bonus`. -/
theorem tallyOne_size_bonus (b : ScoreBreakdown) (r : AnalysisResult) :
    (tallyOne b r).size_bonus = b.size_bonus := by
  cases hs : r.severity <;> simp [tallyOne, hs]

/-- The tally leaves `size_bonus` at its initial zero. -/
theorem tally_size_bonus (results : List AnalysisResult) :
    (tally results).size_bonus = 0 := by
  suffices h : ∀ b : ScoreBreakdown,
      (results.foldl tallyOne b).size_bonus = b.size_bonus from h initBreakdown
  induction results with
  | nil => intro b; rfl
  | cons r rest ih =>
    intro b
    simp only [List.foldl_cons]
    rw [ih (tallyOne b r), tallyOne_size_bonus]

/-- Writing the size bonus changes no count and no deduction sum. -/
theorem applySizeBonus_preserves (b : ScoreBreakdown) (n : Nat) :
    (applySizeBonus b n).errors = b.errors ∧
      (applySizeBonus b n).warnings = b.warnings ∧
      (applySizeBonus b n).info_issues = b.info_issues ∧
      (applySizeBonus b n).style_issues = b.style_issues ∧
      (applySizeBonus b n).error_deduction = b.error_deduction ∧
      (applySizeBonus b n).warning_deduction = b.warning_deduction ∧
      (applySizeBonus b n).info_deduction = b.info_deduction ∧
      (applySizeBonus b n).style_deduction = b.style_deduction := by
  unfold applySizeBonus
  split <;> simp

/-- At 200 lines or fewer the whole breakdown passes through unchanged. -/
theorem applySizeBonus_of_le {n : Nat} (b : ScoreBreakdown) (h : n ≤ 200) :
    applySizeBonus b n = b := by
  unfold applySizeBonus
  rw [if_neg (by omega)]

/-- The four counts of a tally add up to the initial counts plus the number
of tallied issues. -/
theorem foldl_tally_counts (results : List AnalysisResult) :
    ∀ b : ScoreBreakdown,
      (results.foldl tallyOne b).errors + (results.foldl tallyOne b).warnings +
          (results.foldl tallyOne b).info_issues +
          (results.foldl tallyOne b).style_issues =
        b.errors + b.warnings + b.info_issues + b.style_issues +
          results.length := by
  induction results with
  | nil => intro b; simp
  | cons r rest ih =>
    intro b
    simp only [List.foldl_cons, List.length_cons]
    rw [ih (tallyOne b r)]
    cases hs : r.severity <;> simp [tallyOne, hs] <;> omega

/-- The rating of a score `k/10` with `k ≤ 100`, band by band. -/
theorem getRating_tenths (k : Nat) (hk : k ≤ 100) :
    getRating ((k : ℚ) / 10) =
      if 90 ≤ k then "Excellent"
      else if 75 ≤ k then "Good"
      else if 60 ≤ k then "Fair"
      else if 40 ≤ k then "Poor"
      else "Critical" := by
  have h10 : (0:ℚ) < 10 := by norm_num
  have c90 : ((9:ℚ) ≤ (k:ℚ)/10) ↔ 90 ≤ k := by
    rw [le_div_iff₀ h10]; norm_cast
  have c100 : ((k:ℚ)/10 ≤ 10) ↔ k ≤ 100 := by
    rw [div_le_iff₀ h10]; norm_cast
  have c75 : ((15:ℚ)/2 ≤ (k:ℚ)/10) ↔ 75 ≤ k := by
    rw [div_le_div_iff₀ (by norm_num) h10]; norm_cast; omega
  have c89 : ((k:ℚ)/10 ≤ 89/10) ↔ k ≤ 89 := by
    rw [div_le_div_iff_of_pos_right h10]; norm_cast
  have c60 : ((6:ℚ) ≤ (k:ℚ)/10) ↔ 60 ≤ k := by
    rw [le_div_iff₀ h10]; norm_cast
  have c74 : ((k:ℚ)/10 ≤ 74/10) ↔ k ≤ 74 := by
    rw [div_le_div_iff_of_pos_right h10]; norm_cast
  have c40 : ((4:ℚ) ≤ (k:ℚ)/10) ↔ 40 ≤ k := by
    rw [le_div_iff₀ h10]; norm_cast
  have c59 : ((k:ℚ)/10 ≤ 59/10) ↔ k ≤ 59 := by
    rw [div_le_div_iff_of_pos_right h10]; norm_cast
  rw [getRating]
  simp only [c90, c100, c75, c89, c60, c74, c40, c59]
  split_ifs <;> first | rfl | (exfalso; omega)

/-- Tallying one appended issue is one tally step on the previous tally. -/
theorem tally_append_single (results : List AnalysisResult)
    (a : AnalysisResult) :
    tally (results ++ [a]) = tallyOne (tally results) a := by
  simp [tally, List.foldl_append]

/-- One tally step adds exactly the issue's absolute impact to the total
deduction. -/
theorem totalDeduction_tallyOne (b : ScoreBreakdown) (a : AnalysisResult) :
    totalDeduction (tallyOne b a) = totalDeduction b + |a.score_impact| := by
  cases hs : a.severity <;> simp [tallyOne, hs, totalDeduction] <;> ring

end Lemmas

/-- C1: for every issue list and line count the produced Score satisfies
`0 ≤ overall_score ≤ 10` and `max_score = 10`. -/
theorem score_within_bounds (results : List AnalysisResult) (n : Nat) :
    0 ≤ (calculate_score results n).overall_score ∧
      (calculate_score results n).overall_score ≤ 10 ∧
      (calculate_score results n).max_score = 10 := by
  obtain ⟨h0, h10⟩ := roundedScore_bounds results n
  exact ⟨h0, h10, rfl⟩

/-- C2: the size factor is `1 + min((line_count - 200)/1000, 0.3)` above 200
lines (and only then is a size bonus of `leniency * (info_deduction +
style_deduction)` recorded), `0.9` below 50 lines and `1.0` otherwise with
no bonus; a positive `size_bonus` forces `line_count > 200`, and the
leniency never exceeds `0.3`. -/
theorem size_factor_spec (results : List AnalysisResult) (n : Nat) :
    (200 < n → sizeFactor n = 1 + min (((n : ℚ) - 200) / 1000) (3/10) ∧
      (calculate_score results n).breakdown.size_bonus =
        min (((n : ℚ) - 200) / 1000) (3/10) *
          ((calculate_score results n).breakdown.info_deduction +
            (calculate_score results n).breakdown.style_deduction)) ∧
    (n < 50 → sizeFactor n = 9/10 ∧
      (calculate_score results n).breakdown.size_bonus = 0) ∧
    (50 ≤ n → n ≤ 200 → sizeFactor n = 1 ∧
      (calculate_score results n).breakdown.size_bonus = 0) ∧
    (0 < (calculate_score results n).breakdown.size_bonus → 200 < n) ∧
    leniency n ≤ 3/10 := by
  have hb : (calculate_score results n).breakdown =
      applySizeBonus (tally results) n := rfl
  have hzero : ∀ h : n ≤ 200,
      (calculate_score results n).breakdown.size_bonus = 0 := by
    intro h
    rw [hb, applySizeBonus_of_le _ h, tally_size_bonus]
  refine ⟨?_, ?_, ?_, ?_, min_le_right _ _⟩
  · intro h
    obtain ⟨-, -, -, -, -, -, hi, hs⟩ := applySizeBonus_preserves (tally results) n
    refine ⟨by rw [sizeFactor, if_pos h, leniency], ?_⟩
    rw [hb, hi, hs]
    show (applySizeBonus (tally results) n).size_bonus = _
    rw [applySizeBonus, if_pos h, leniency]
  · intro h
    exact ⟨by rw [sizeFactor, if_neg (by omega), if_pos h], hzero (by omega)⟩
  · intro h1 h2
    exact ⟨by rw [sizeFactor, if_neg (by omega), if_neg (by omega)], hzero h2⟩
  · intro h
    by_contra h'
    rw [hzero (by omega)] at h
    exact lt_irrefl 0 h

/-- C8: `total_issues` equals the length of the issue list, which equals the
sum of the four breakdown counts. -/
theorem total_issues_consistent (results : List AnalysisResult) (n : Nat) :
    (calculate_score results n).total_issues = results.length ∧
      results.length =
        (calculate_score results n).breakdown.errors +
          (calculate_score results n).breakdown.warnings +
          (calculate_score results n).breakdown.info_issues +
          (calculate_score results n).breakdown.style_issues := by
  have hb : (calculate_score results n).breakdown =
      applySizeBonus (tally results) n := rfl
  obtain ⟨he, hw, hi, hs, -⟩ := applySizeBonus_preserves (tally results) n
  have hc := foldl_tally_counts results initBreakdown
  simp only [initBreakdown] at hc
  refine ⟨rfl, ?_⟩
  rw [hb, he, hw, hi, hs]
  simp only [tally, initBreakdown]
  omega

/-- Witness for C2 in the large-file branch at 1200 lines. -/
theorem size_factor_spec_witness :
    sizeFactor 1200 = 1 + min ((((1200:Nat) : ℚ) - 200) / 1000) (3/10) ∧
      (calculate_score [] 1200).breakdown.size_bonus =
        min ((((1200:Nat) : ℚ) - 200) / 1000) (3/10) *
          ((calculate_score [] 1200).breakdown.info_deduction +
            (calculate_score [] 1200).breakdown.style_deduction) :=
  (size_factor_spec [] 1200).1 (by norm_num)

/-- C3: the rating is selected from the rounded overall score; the rounded
score is always `k/10` for a natural `k ≤ 100`, and at that granularity the
inclusive bands `[9.0,10.0] ↦ Excellent`, `[7.5,8.9] ↦ Good`,
`[6.0,7.4] ↦ Fair`, `[4.0,5.9] ↦ Poor`, otherwise `Critical` give every
score exactly one rating with no gaps. -/
theorem rating_bands (results : List AnalysisResult) (n : Nat) :
    (calculate_score results n).rating =
        getRating (calculate_score results n).overall_score ∧
      (∃ k : Nat, k ≤ 100 ∧
        (calculate_score results n).overall_score = (k : ℚ) / 10) ∧
      (∀ k : Nat, k ≤ 100 →
        getRating ((k : ℚ) / 10) =
          if 90 ≤ k then "Excellent"
          else if 75 ≤ k then "Good"
          else if 60 ≤ k then "Fair"
          else if 40 ≤ k then "Poor"
          else "Critical") :=
  ⟨rfl, roundedScore_eq_tenths results n, fun k hk => getRating_tenths k hk⟩

/-- Witness for C3 at the concrete tenth 9.2. -/
theorem rating_bands_witness :
    getRating (((92:Nat) : ℚ) / 10) =
      if 90 ≤ (92:Nat) then "Excellent"
      else if 75 ≤ (92:Nat) then "Good"
      else if 60 ≤ (92:Nat) then "Fair"
      else if 40 ≤ (92:Nat) then "Poor"
      else "Critical" :=
  (rating_bands [] 100).2.2 92 (by norm_num)

/-- C4: the summary is chosen by the first matching rule in the fixed order
errors, warnings, info count, score thresholds, fallback, and it depends
only on the raw counts and the score, never on the rating bucket or the
other breakdown fields. -/
theorem summary_selection (score : ℚ) (b : ScoreBreakdown) :
    (0 < b.errors → getSummary score b =
      "Code has " ++ toString b.errors ++
        " critical errors that need immediate attention") ∧
    (b.errors = 0 → 5 < b.warnings → getSummary score b =
      "Multiple warnings detected - consider addressing them") ∧
    (b.errors = 0 → b.warnings ≤ 5 → 10 < b.info_issues →
      getSummary score b =
        "Many minor issues found - good opportunity for cleanup") ∧
    (b.errors = 0 → b.warnings ≤ 5 → b.info_issues ≤ 10 → 9 ≤ score →
      getSummary score b = "Excellent code quality with minimal issues") ∧
    (b.errors = 0 → b.warnings ≤ 5 → b.info_issues ≤ 10 → score < 9 →
      15/2 ≤ score → getSummary score b =
        "Good code quality with room for minor improvements") ∧
    (b.errors = 0 → b.warnings ≤ 5 → b.info_issues ≤ 10 → score < 15/2 →
      getSummary score b = "Code needs improvement in several areas") ∧
    (∀ b2 : ScoreBreakdown, b2.errors = b.errors → b2.warnings = b.warnings →
      b2.info_issues = b.info_issues →
      getSummary score b2 = getSummary score b) := by
  refine ⟨?_, ?_, ?_, ?_, ?_, ?_, ?_⟩
  · intro h
    rw [getSummary, if_pos h]
  · intro h0 h
    rw [getSummary, if_neg (by omega), if_pos h]
  · intro h0 h1 h
    rw [getSummary, if_neg (by omega), if_neg (by omega), if_pos h]
  · intro h0 h1 h2 h
    rw [getSummary, if_neg (by omega), if_neg (by omega), if_neg (by omega),
      if_pos h]
  · intro h0 h1 h2 h9 h
    rw [getSummary, if_neg (by omega), if_neg (by omega), if_neg (by omega),
      if_neg (not_le.mpr h9), if_pos h]
  · intro h0 h1 h2 h
    rw [getSummary, if_neg (by omega), if_neg (by omega), if_neg (by omega),
      if_neg (not_le.mpr (h.trans_le (by norm_num))),
      if_neg (not_le.mpr h)]
  · intro b2 h1 h2 h3
    simp only [getSummary, h1, h2, h3]

/-- Witness for C4: two critical errors select the error-count summary. -/
theorem summary_selection_witness :
    getSummary 5 errBreakdown =
      "Code has " ++ toString errBreakdown.errors ++
        " critical errors that need immediate attention" :=
  (summary_selection 5 errBreakdown).1 (by decide)

/-- C6: appending any additional issue, with the line count unchanged,
never increases the overall score. -/
theorem score_monotone (results : List AnalysisResult) (a : AnalysisResult)
    (n : Nat) :
    (calculate_score (results ++ [a]) n).overall_score ≤
      (calculate_score results n).overall_score := by
  show roundedScore (results ++ [a]) n ≤ roundedScore results n
  simp only [roundedScore]
  have hs : 0 < sizeFactor n := sizeFactor_pos n
  have ht : totalDeduction (tally results) ≤
      totalDeduction (tally (results ++ [a])) := by
    rw [tally_append_single, totalDeduction_tallyOne]
    exact le_add_of_nonneg_right (abs_nonneg _)
  have hdiv : totalDeduction (tally results) / sizeFactor n ≤
      totalDeduction (tally (results ++ [a])) / sizeFactor n :=
    (div_le_div_iff_of_pos_right hs).mpr ht
  have hmax : max 0 (10 - totalDeduction (tally (results ++ [a])) / sizeFactor n) ≤
      max 0 (10 - totalDeduction (tally results) / sizeFactor n) :=
    max_le_max le_rfl (by linarith)
  have h0 : (0:ℚ) ≤
      max 0 (10 - totalDeduction (tally (results ++ [a])) / sizeFactor n) * 10 := by
    positivity
  have hr := rustRound_mono h0 (by linarith :
    max 0 (10 - totalDeduction (tally (results ++ [a])) / sizeFactor n) * 10 ≤
      max 0 (10 - totalDeduction (tally results) / sizeFactor n) * 10)
  exact (div_le_div_iff_of_pos_right (by norm_num : (0:ℚ) < 10)).mpr
    (by exact_mod_cast hr)

/-- C7: five Style issues of weight 1.0 with 1200 lines give
`style_deduction = 1.0`, `leniency = 0.3`, `size_bonus = 0.3`,
`size_factor = 1.3`, a rounded overall score of 9.2 and rating
`Excellent`. -/
theorem scenario_d :
    (calculate_score (List.replicate 5 styleIssue) 1200).breakdown.style_deduction = 1 ∧
      leniency 1200 = 3/10 ∧
      (calculate_score (List.replicate 5 styleIssue) 1200).breakdown.size_bonus = 3/10 ∧
      sizeFactor 1200 = 13/10 ∧
      (calculate_score (List.replicate 5 styleIssue) 1200).overall_score = 92/10 ∧
      (calculate_score (List.replicate 5 styleIssue) 1200).rating = "Excellent" := by
  have habs : |(-(1/5) : ℚ)| = 1/5 := by
    rw [abs_neg, abs_of_nonneg (by norm_num : (0:ℚ) ≤ 1/5)]
  have htally : tally (List.replicate 5 styleIssue) =
      { errors := 0, warnings := 0, info_issues := 0, style_issues := 5
        error_deduction := 0, warning_deduction := 0, info_deduction := 0
        style_deduction := 1, size_bonus := 0 } := by
    have habs' : |(5 : ℚ)⁻¹| = 5⁻¹ := abs_of_nonneg (by norm_num)
    simp [tally, List.replicate, tallyOne, initBreakdown, styleIssue, habs]
    rw [habs']
    norm_num
  have hlen : leniency 1200 = 3/10 := by
    rw [leniency]
    norm_num
  have hsf : sizeFactor 1200 = 13/10 := by
    rw [sizeFactor, if_pos (by norm_num), hlen]
    norm_num
  have hb : (calculate_score (List.replicate 5 styleIssue) 1200).breakdown =
      applySizeBonus (tally (List.replicate 5 styleIssue)) 1200 := rfl
  have hround : roundedScore (List.replicate 5 styleIssue) 1200 = 92/10 := by
    simp only [roundedScore, htally, hsf, totalDeduction, rustRound]
    norm_num [sup_eq_max, max_def]
  refine ⟨?_, hlen, ?_, hsf, hround, ?_⟩
  · rw [hb, htally]
    simp [applySizeBonus]
  · rw [hb, htally]
    simp [applySizeBonus, hlen]
  · show getRating (roundedScore (List.replicate 5 styleIssue) 1200) = "Excellent"
    rw [hround, getRating, if_pos (by norm_num)]

/-- Counterexample to C5 as stated: with a negative rule weight the emitted
issue's `score_impact` is strictly positive, so `score_impact ≤ 0` fails. -/
theorem score_impact_counterexample :
    ∃ res, analyze singleCaptureEngine [negWeightRule] = Except.ok res ∧
      ∃ r ∈ res, 0 < r.score_impact := by
  refine ⟨ruleIssues negWeightRule [{ row := 0, col := 0, text := "x" }] ++ [],
    rfl, ?_⟩
  refine ⟨_, List.mem_append_left _
    (List.mem_map_of_mem _ (List.mem_singleton_self _)), ?_⟩
  show (0:ℚ) < negWeightRule.severity.base_score_impact *
    negWeightRule.weight_multiplier
  norm_num [negWeightRule, Severity.base_score_impact]

/-- C5 amended: every issue the Matcher emits carries
`score_impact = base_score_impact(severity) * weight
            = -(base_magnitude(severity) * weight)`
for the rule that produced it, and `score_impact ≤ 0` whenever that rule's
weight is nonnegative (negative weights flip the sign). -/
theorem analyze_score_impact (engine : String → Except String (List Capture)) :
    ∀ (rules : List AnalysisRule) (res : List AnalysisResult),
      analyze engine rules = Except.ok res →
      ∀ r ∈ res, ∃ rule, rule ∈ rules ∧ r.rule_name = rule.name ∧
        r.score_impact =
          rule.severity.base_score_impact * rule.weight_multiplier ∧
        r.score_impact =
          -(rule.severity.base_magnitude * rule.weight_multiplier) ∧
        (0 ≤ rule.weight_multiplier → r.score_impact ≤ 0) := by
  intro rules
  induction rules with
  | nil =>
    intro res h r hr
    simp only [analyze, Except.ok.injEq] at h
    subst h
    exact absurd hr (List.not_mem_nil r)
  | cons rule rest ih =>
    intro res h r hr
    rw [analyze] at h
    cases h1 : engine rule.query with
    | error e => rw [h1] at h; cases h
    | ok caps =>
      rw [h1] at h
      cases h2 : analyze engine rest with
      | error e => rw [h2] at h; cases h
      | ok tail =>
        rw [h2] at h
        injection h with h
        subst h
        rcases List.mem_append.mp hr with hr1 | hr2
        · obtain ⟨c, -, hc⟩ := List.mem_map.mp hr1
          subst hc
          refine ⟨rule, List.mem_cons_self rule rest, rfl, rfl, ?_, ?_⟩
          · show rule.severity.base_score_impact * rule.weight_multiplier = _
            rw [base_score_impact_eq_neg_magnitude]
            ring
          · intro hw
            show rule.severity.base_score_impact * rule.weight_multiplier ≤ 0
            exact mul_nonpos_iff.mpr
              (Or.inr ⟨base_score_impact_nonpos rule.severity, hw⟩)
        · obtain ⟨rule', hmem, hrest⟩ := ih tail h2 r hr2
          exact ⟨rule', List.mem_cons_of_mem rule hmem, hrest⟩

/-- Witness for the amended C5 on a weight-2 warning rule. -/
theorem analyze_score_impact_witness :
    ∃ rule, rule ∈ [warnRule] ∧ warnIssue.rule_name = rule.name ∧
      warnIssue.score_impact =
        rule.severity.base_score_impact * rule.weight_multiplier ∧
      warnIssue.score_impact =
        -(rule.severity.base_magnitude * rule.weight_multiplier) ∧
      (0 ≤ rule.weight_multiplier → warnIssue.score_impact ≤ 0) :=
  analyze_score_impact singleCaptureEngine [warnRule] [warnIssue] rfl
    warnIssue (List.mem_singleton_self warnIssue)

/-- C9: if any rule's pattern query is invalid for the grammar, `analyze`
returns an error for the whole run and produces no issue list at all. -/
theorem bad_pattern_aborts (engine : String → Except String (List Capture))
    (rules : List AnalysisRule)
    (h : ∃ rule ∈ rules, ∃ e, engine rule.query = Except.error e) :
    ∃ e, analyze engine rules = Except.error e := by
  induction rules with
  | nil =>
    obtain ⟨rule, hmem, -⟩ := h
    exact absurd hmem (List.not_mem_nil rule)
  | cons rule rest ih =>
    obtain ⟨r, hmem, e, he⟩ := h
    cases h1 : engine rule.query with
    | error e' => exact ⟨e', by rw [analyze, h1]⟩
    | ok caps =>
      have hr : r ∈ rest := by
        rcases List.mem_cons.mp hmem with heq | hm
        · subst heq
          rw [he] at h1
          cases h1
        · exact hm
      obtain ⟨e'', he''⟩ := ih ⟨r, hr, e, he⟩
      exact ⟨e'', by rw [analyze, h1, he'']⟩

/-- Witness for C9: an engine rejecting every query aborts the analysis. -/
theorem bad_pattern_aborts_witness :
    ∃ e, analyze failingEngine [warnRule] = Except.error e :=
  bad_pattern_aborts failingEngine [warnRule]
    ⟨warnRule, List.mem_singleton_self warnRule, "PatternError", rfl⟩

/-- C10: a rule descriptor that omits the `enabled` field parses as
disabled; a configuration whose rules are all disabled yields an empty
analyzer; and every rule the analyzer receives comes from a descriptor
explicitly marked enabled. -/
theorem disabled_rules_excluded :
    (∀ name query sev msg sugg w lang,
      (parseRuleConfig name query sev msg sugg w none lang).enabled = false) ∧
    (∀ cfg lang, (∀ rc ∈ cfg, rc.enabled = false) →
      toAnalyzerForLanguage cfg lang = []) ∧
    (∀ cfg lang r, r ∈ toAnalyzerForLanguage cfg lang →
      ∃ rc, rc ∈ cfg ∧ rc.enabled = true ∧ r = configToRule rc) := by
  refine ⟨fun _ _ _ _ _ _ _ => rfl, ?_, ?_⟩
  · intro cfg lang hall
    simp only [toAnalyzerForLanguage]
    rw [List.filterMap_eq_nil_iff]
    intro rc hrc
    rw [hall rc hrc]
    simp
  · intro cfg lang r hr
    simp only [toAnalyzerForLanguage] at hr
    obtain ⟨rc, hrc, hf⟩ := List.mem_filterMap.mp hr
    by_cases he : rc.enabled = true
    · rw [if_pos he] at hf
      refine ⟨rc, hrc, he, ?_⟩
      cases hl : rc.language with
      | none =>
        simp only [hl] at hf
        exact (Option.some_inj.mp hf).symm
      | some l =>
        simp only [hl] at hf
        by_cases htl : l.toLower = lang.toLower
        · rw [if_pos htl] at hf
          exact (Option.some_inj.mp hf).symm
        · rw [if_neg htl] at hf
          cases hf
    · rw [if_neg he] at hf
      cases hf

/-- Witness for C10: an explicitly enabled descriptor reaches the
analyzer. -/
theorem disabled_rules_excluded_witness :
    ∃ rc, rc ∈ [enabledRC] ∧ rc.enabled = true ∧
      configToRule enabledRC = configToRule rc :=
  disabled_rules_excluded.2.2 [enabledRC] "rust" (configToRule enabledRC)
    (by simp [toAnalyzerForLanguage, List.filterMap, enabledRC])

end Compass
